import Mathlib

/-!
Verification of `texture_network.py` (texture-networks repository).

The program builds a multi-resolution texture generator network: a noise
pyramid feeds a sequence of convolutional chains whose outputs are fused
across resolutions, ending in a 3-channel image; a training loop drives a
Gram-matrix style loss and periodically exports checkpoints and images.

The embedding below is shape-level: every tensor is represented by its
shape (batch, height, width, channels), since the claims under scrutiny
concern shape bookkeeping, loop structure and export quantization.
Python's floor division `//` is `Nat.div` here; the export pixel pipeline
is embedded over `ℚ`.
-/

namespace TextureNetworks

/-- Shape of a 4D tensor: (batch, height, width, channels), as used
throughout `texture_network.py`. -/
structure Shape where
  batch : Nat
  h : Nat
  w : Nat
  c : Nat
deriving DecidableEq, Repr

/-- Modelled from the spec: `conv2d` from `network_helpers` (not under
`src/`) is a learned convolution with bias and same-padding semantics
(spec §4.2: "apply a learned convolution (bias included) preserving
spatial dimensions (same-padding semantics)"); at shape level it
preserves batch and spatial size and sets the channel count to the
number of output maps of the weight tensor. -/
def conv2d (input : Shape) (out_channels : Nat) : Shape :=
  ⟨input.batch, input.h, input.w, out_channels⟩

/-- Modelled from the spec: `spatial_batch_norm` from `network_helpers`
(not under `src/`) is per-channel batch normalization over the
batch+spatial axes (spec §4.2), an elementwise affine rescaling; at
shape level it is the identity. -/
def spatial_batch_norm (input : Shape) : Shape := input

/-- `leaky_relu` (texture_network.py line 8): `tf.maximum(x * alpha, x)`,
elementwise, hence shape preserving. -/
def leaky_relu (input : Shape) : Shape := input

/-- `input_pyramid` (texture_network.py lines 12-19): placeholders of
shape `[batch_size, M//(2**x), M//(2**x), 3]` for `x in range(k)`, then
reversed in place, so the coarsest level comes first. The TF name scope
argument does not affect shapes. -/
def input_pyramid (name : String) (M batch_size : Nat) (k : Nat := 5) :
    List Shape :=
  (((List.range k).map
      (fun x => Shape.mk batch_size (M / 2 ^ x) (M / 2 ^ x) 3))).reverse

/-- `noise_pyramid` (texture_network.py lines 22-23): arrays of shape
`(batch_size, M//(2**x), M//(2**x), 3)` for `x in range(k)`, reversed by
`[::-1]`, so the coarsest level comes first. -/
def noise_pyramid (M batch_size : Nat) (k : Nat := 5) : List Shape :=
  (((List.range k).map
      (fun x => Shape.mk batch_size (M / 2 ^ x) (M / 2 ^ x) 3))).reverse

/-- `conv_block` (texture_network.py lines 26-47): convolution with
`out_channels` maps, spatial batch norm, leaky ReLU. The kernel size
does not change the output shape under same-padding. -/
def conv_block (input_layer : Shape) (kernel_size out_channels : Nat) :
    Shape :=
  let conv := conv2d input_layer out_channels
  let batch_norm := spatial_batch_norm conv
  let relu := leaky_relu batch_norm
  relu

/-- `conv_chain` (texture_network.py lines 50-59): three `conv_block`
units with kernel sizes 3, 3, 1, all with the same `out_channels`. -/
def conv_chain (input_layer : Shape) (out_channels : Nat) : Shape :=
  let block1 := conv_block input_layer 3 out_channels
  let block2 := conv_block block1 3 out_channels
  let block3 := conv_block block2 1 out_channels
  block3

/-- `tf.image.resize_nearest_neighbor` (used at texture_network.py line
67): resizes the spatial dimensions to the given target, keeping batch
and channels. -/
def resize_nearest_neighbor (input : Shape) (hw : Nat × Nat) : Shape :=
  ⟨input.batch, hw.1, hw.2, input.c⟩

/-- `tf.concat(3, [a, b])` (texture_network.py line 70): concatenation
along the channel axis; defined (at graph construction) only when the
other three dimensions agree, and then the channel counts add. -/
def tf_concat3 (a b : Shape) : Option Shape :=
  if a.batch = b.batch ∧ a.h = b.h ∧ a.w = b.w then
    some ⟨a.batch, a.h, a.w, a.c + b.c⟩
  else none

/-- `join_block` (texture_network.py lines 62-70): upsample the lower
resolution layer to the higher layer's spatial size with nearest
neighbor, batch norm both, concat along channels. -/
def join_block (lower_res_layer higher_res_layer : Shape) :
    Option Shape :=
  let upsampled := resize_nearest_neighbor lower_res_layer
    (higher_res_layer.h, higher_res_layer.w)
  let batch_norm_lower := spatial_batch_norm upsampled
  let batch_norm_higher := spatial_batch_norm higher_res_layer
  tf_concat3 batch_norm_lower batch_norm_higher

/-- `channelStepSize` (texture_network.py line 75). -/
def channelStepSize : Nat := 8

/-- One iteration of the level loop in `TextureNetwork.__init__`
(texture_network.py lines 88-92): chain the aggregate at the running
width, chain the new noise frame at the step size, bump the running
width, fuse. The state is `(current_channels, current_noise_aggregate)`. -/
def gen_step (st : Nat × Shape) (noise_frame : Shape) :
    Option (Nat × Shape) :=
  let low_res_out := conv_chain st.2 st.1
  let high_res_out := conv_chain noise_frame channelStepSize
  (join_block low_res_out high_res_out).map
    (fun agg => (st.1 + channelStepSize, agg))

/-- The level loop of `TextureNetwork.__init__` over
`self.noise_inputs[1:]` (texture_network.py lines 88-92). -/
def gen_loop : Nat × Shape → List Shape → Option (Nat × Shape)
  | st, [] => some st
  | st, f :: fs =>
    match gen_step st f with
    | none => none
    | some st2 => gen_loop st2 fs

/-- The generator graph of `TextureNetwork.__init__` (texture_network.py
lines 85-94): noise pyramid, level loop starting from
`current_channels = 8` and the coarsest noise frame, then a final
`conv_chain` at the final running width and a 1x1 `conv_block` with 3
output channels. -/
def texture_network_output (M B k : Nat) : Option Shape :=
  match input_pyramid "noise" M B k with
  | [] => none
  | first :: rest =>
    (gen_loop (8, first) rest).map
      (fun st => conv_block (conv_chain st.2 st.1) 1 3)

/-- Loop state after processing `i` levels of the pyramid tail
(`i = 0` is the initial state `(8, coarsest frame)`). -/
def gen_trace (M B k i : Nat) : Option (Nat × Shape) :=
  match input_pyramid "noise" M B k with
  | [] => none
  | first :: rest => gen_loop (8, first) (rest.take i)

/-- Total channel count entering the fusion at level `i` (`i ≥ 1`): the
sum of the channel counts of the two chain outputs fed to `join_block`
at iteration `i` of the level loop. -/
def fusion_entering_channels (M B k i : Nat) : Option Nat :=
  (gen_trace M B k (i - 1)).bind
    (fun st => ((input_pyramid "noise" M B k).get? i).map
      (fun frame =>
        (conv_chain st.2 st.1).c + (conv_chain frame channelStepSize).c))

/-- The step indices at which `TextureNetwork.run_train`
(texture_network.py lines 118-129) saves a checkpoint and writes a
rendered image: iterations `i in range(epochs)` with
`i > 0 and i % 20 == 0`; both the checkpoint filename and the image
filename are keyed by `i`. -/
def snapshot_steps (epochs : Nat) : List Nat :=
  (List.range epochs).filter (fun i => decide (0 < i) && decide (i % 20 = 0))

/-- `np.clip(x, lo, hi)` (numpy semantics): `min (max x lo) hi`. -/
def np_clip (x lo hi : ℚ) : ℚ := min (max x lo) hi

/-- The export pixel transform of `TextureNetwork.run_train`
(texture_network.py line 128):
`np.clip(network_out * 255.0, 0, 255).astype('uint8')`. The float
values are modelled as rationals; `astype('uint8')` truncates toward
zero, which on the clipped range `[0, 255]` is the floor. -/
def export_pixel (v : ℚ) : ℤ := Int.floor (np_clip (v * 255) 0 255)

/-- The two graph tensors that feed the VGG network call at
texture_network.py line 102. -/
inductive GraphTensor where
  | textureImage
  | generatedOutput
deriving DecidableEq, Repr

/-- The argument list of `tf.concat(0, [...])` at texture_network.py
line 102: `[self.texture_image, self.output, self.output]`. -/
def vgg_input_tensors : List GraphTensor :=
  [GraphTensor.textureImage, GraphTensor.generatedOutput,
    GraphTensor.generatedOutput]

/-- `tf.concat(0, shapes)`: concatenation along the batch axis; defined
when the non-batch dimensions agree, and then the batch counts add. -/
def tf_concat0 (l : List Shape) : Option Shape :=
  match l with
  | [] => none
  | s :: rest =>
    if rest.all (fun r =>
        decide (r.h = s.h) && decide (r.w = s.w) && decide (r.c = s.c)) then
      some ⟨s.batch + (rest.map Shape.batch).sum, s.h, s.w, s.c⟩
    else none

/-- `self.texture_image` (texture_network.py line 100): the style image
reshaped to `(1, 224, 224, 3)`. -/
def texture_image_shape : Shape := ⟨1, 224, 224, 3⟩

/-- Shape of the batched tensor handed to `VGGNetwork` at
texture_network.py line 102, for the configured `M = 224`, `B = 1`,
`k = 5`. -/
def vgg_input_shape : Option Shape :=
  (texture_network_output 224 1 5).bind
    (fun out => tf_concat0 [texture_image_shape, out, out])

/-! ## Helper lemmas -/

/-- `join_block` succeeds whenever the two layers agree on the batch
dimension, and then yields the higher layer's spatial size with the sum
of the channel counts. -/
lemma join_block_eq (lower higher : Shape)
    (hb : lower.batch = higher.batch) :
    join_block lower higher =
      some ⟨higher.batch, higher.h, higher.w, lower.c + higher.c⟩ := by
  simp [join_block, tf_concat3, resize_nearest_neighbor,
    spatial_batch_norm, hb]

/-- One loop iteration on a frame with matching batch size: the running
width grows by the step size and the new aggregate takes the frame's
spatial size and the summed channel count. -/
lemma gen_step_eq (st : Nat × Shape) (f : Shape)
    (hb : f.batch = st.2.batch) :
    gen_step st f =
      some (st.1 + 8, ⟨st.2.batch, f.h, f.w, st.1 + 8⟩) := by
  have h := join_block_eq (conv_chain st.2 st.1)
    (conv_chain f channelStepSize) (by simpa [conv_chain, conv_block,
      conv2d, spatial_batch_norm, leaky_relu] using hb.symm)
  simp only [gen_step, h]
  simp [conv_chain, conv_block, conv2d, spatial_batch_norm, leaky_relu,
    channelStepSize, hb]

/-- The level loop never fails on frames whose batch size matches the
aggregate's, and it preserves the batch size. -/
lemma gen_loop_isSome (frames : List Shape) :
    ∀ st : Nat × Shape, (∀ f ∈ frames, f.batch = st.2.batch) →
      ∃ st', gen_loop st frames = some st' ∧
        st'.2.batch = st.2.batch := by
  induction frames with
  | nil => exact fun st _ => ⟨st, rfl, rfl⟩
  | cons f fs ih =>
    intro st hb
    have hf : f.batch = st.2.batch := hb f (List.mem_cons_self f fs)
    obtain ⟨st', hloop, hbatch⟩ :=
      ih (st.1 + 8, ⟨st.2.batch, f.h, f.w, st.1 + 8⟩)
        (fun g hg => hb g (List.mem_cons_of_mem f hg))
    exact ⟨st', by rw [gen_loop, gen_step_eq st f hf]; exact hloop,
      hbatch⟩

/-- Every shape in the input pyramid has batch size `B`. -/
lemma input_pyramid_batch (name : String) (M B k : Nat) :
    ∀ s ∈ input_pyramid name M B k, s.batch = B := by
  intro s hs
  simp only [input_pyramid, List.mem_reverse, List.mem_map,
    List.mem_range] at hs
  obtain ⟨x, _, rfl⟩ := hs
  rfl

/-- The element at index `j` of the noise pyramid (coarsest first). -/
lemma noise_pyramid_getElem? (M B K j : Nat) (hj : j < K) :
    (noise_pyramid M B K)[j]? =
      some ⟨B, M / 2 ^ (K - 1 - j), M / 2 ^ (K - 1 - j), 3⟩ := by
  have hlen : ((List.range K).map
      (fun x => Shape.mk B (M / 2 ^ x) (M / 2 ^ x) 3)).length = K := by
    simp
  have hj' : j < ((List.range K).map
      (fun x => Shape.mk B (M / 2 ^ x) (M / 2 ^ x) 3)).length := by
    omega
  have h2 : K - 1 - j < ((List.range K).map
      (fun x => Shape.mk B (M / 2 ^ x) (M / 2 ^ x) 3)).length := by
    omega
  rw [noise_pyramid, List.getElem?_reverse hj', hlen,
    List.getElem?_eq_getElem (by omega : K - 1 - j < _),
    List.getElem_map, List.getElem_range]

/-- For `M` divisible by `2 ^ (K - 1)` and `a ≤ K - 1`, floor division
is exact: `M / 2 ^ a = 2 ^ (K - 1 - a) * (M / 2 ^ (K - 1))`. -/
lemma div_pow_of_dvd (M K a : Nat) (hdvd : 2 ^ (K - 1) ∣ M)
    (ha : a ≤ K - 1) :
    M / 2 ^ a = 2 ^ (K - 1 - a) * (M / 2 ^ (K - 1)) := by
  obtain ⟨t, rfl⟩ := hdvd
  have h2a : (0:ℕ) < 2 ^ a := Nat.pos_pow_of_pos _ (by norm_num)
  have h2K : (0:ℕ) < 2 ^ (K - 1) := Nat.pos_pow_of_pos _ (by norm_num)
  have hsplit : (2:ℕ) ^ (K - 1) = 2 ^ a * 2 ^ (K - 1 - a) := by
    rw [← pow_add]
    congr 1
    omega
  rw [Nat.mul_div_cancel_left _ h2K]
  calc 2 ^ (K - 1) * t / 2 ^ a
      = 2 ^ a * (2 ^ (K - 1 - a) * t) / 2 ^ a := by rw [hsplit, mul_assoc]
    _ = 2 ^ (K - 1 - a) * t := Nat.mul_div_cancel_left _ h2a

/-! ## Claim theorems -/

/-- C1: with `K = 5` pyramid levels, `M = 224` and batch size 1, the
generator graph of `TextureNetwork.__init__` outputs a tensor of shape
(1, 224, 224, 3); after the level loop the running channel width is 40,
which is the width of the final convolutional chain before the final
1x1 block with 3 output channels. -/
theorem generator_output_shape :
    texture_network_output 224 1 5 = some ⟨1, 224, 224, 3⟩ ∧
    (gen_trace 224 1 5 4).map Prod.fst = some 40 :=
  ⟨by decide, by decide⟩

/-- C2: in the configured generator (`M = 224`, `B = 1`, `K = 5`), for
every level `i` in `1..4`, the total channel count entering the fusion
at level `i` is the running width `8 * i` plus the step size 8, and
after processing level `i` the aggregate has `8 * (i + 1)` channels,
equal to the running width — monotonically increasing with the
level. -/
theorem level_channel_invariant (i : Nat) (h1 : 1 ≤ i) (h2 : i ≤ 4) :
    fusion_entering_channels 224 1 5 i = some (8 * i + 8) ∧
    (gen_trace 224 1 5 i).map (fun st => (st.1, st.2.c)) =
      some (8 * (i + 1), 8 * (i + 1)) := by
  interval_cases i <;> exact ⟨by decide, by decide⟩

/-- Witness for C2 at level `i = 3`. -/
theorem level_channel_invariant_witness :
    fusion_entering_channels 224 1 5 3 = some (8 * 3 + 8) ∧
    (gen_trace 224 1 5 3).map (fun st => (st.1, st.2.c)) =
      some (8 * (3 + 1), 8 * (3 + 1)) :=
  level_channel_invariant 3 (by decide) (by decide)

/-- C3 counterexample: running `run_train` for exactly `epochs = 20`
steps (loop indices 0..19, condition `i > 0 and i % 20 == 0`) saves no
checkpoint and writes no image at all — not exactly one. -/
theorem train_20_epochs_no_snapshot :
    snapshot_steps 20 = [] ∧ (snapshot_steps 20).length ≠ 1 := by
  decide

/-- C3 amended: the first run length that produces a snapshot is
`epochs = 21` (loop indices 0..20), which saves exactly one checkpoint
and one rendered image, both keyed by step index 20. -/
theorem train_21_epochs_one_snapshot :
    snapshot_steps 21 = [20] ∧ (snapshot_steps 21).length = 1 := by
  decide

/-- C4 counterexample: at `M = 225`, `K = 5` (and `225` is not
divisible by `2 ^ 4`), pyramid construction does not fail: floor
division yields the 5 levels below and the whole generator graph still
builds, with output shape (1, 225, 225, 3); no configuration error is
detected. -/
theorem indivisible_M_not_detected :
    ¬ 2 ^ (5 - 1) ∣ 225 ∧
    noise_pyramid 225 1 5 =
      [⟨1, 14, 14, 3⟩, ⟨1, 28, 28, 3⟩, ⟨1, 56, 56, 3⟩,
        ⟨1, 112, 112, 3⟩, ⟨1, 225, 225, 3⟩] ∧
    texture_network_output 225 1 5 = some ⟨1, 225, 225, 3⟩ := by
  refine ⟨by decide, by decide, by decide⟩

/-- C4 amended: when `M` is not evenly divisible by `2 ^ (K - 1)`,
noise pyramid construction does not fail and nothing is detected at
network-construction time: the pyramid still has `K` levels (with
floor-divided, no-longer-exactly-halved sizes) and the generator graph
construction succeeds. -/
theorem indivisible_M_construction_succeeds (M B K : Nat)
    (hK : 0 < K) (hnd : ¬ 2 ^ (K - 1) ∣ M) :
    (noise_pyramid M B K).length = K ∧
    (texture_network_output M B K).isSome := by
  constructor
  · simp [noise_pyramid]
  · have hlen : (input_pyramid "noise" M B K).length = K := by
      simp [input_pyramid]
    rcases h : input_pyramid "noise" M B K with _ | ⟨first, rest⟩
    · rw [h] at hlen
      simp at hlen
      omega
    · have hfirst : first.batch = B :=
        input_pyramid_batch "noise" M B K first (by rw [h]; simp)
      have hrest : ∀ f ∈ rest, f.batch = (8, first).2.batch := by
        intro f hf
        rw [hfirst]
        exact input_pyramid_batch "noise" M B K f
          (by rw [h]; exact List.mem_cons_of_mem first hf)
      obtain ⟨st', hloop, _⟩ := gen_loop_isSome rest (8, first) hrest
      have hout : texture_network_output M B K =
          (gen_loop (8, first) rest).map
            (fun st => conv_block (conv_chain st.2 st.1) 1 3) := by
        unfold texture_network_output
        rw [h]
      rw [hout, hloop]
      rfl

/-- Witness for C4 amended at `M = 225`, `B = 1`, `K = 5`. -/
theorem indivisible_M_construction_succeeds_witness :
    (noise_pyramid 225 1 5).length = 5 ∧
    (texture_network_output 225 1 5).isSome :=
  indivisible_M_construction_succeeds 225 1 5 (by decide) (by decide)

/-- C5: for every valid configuration (`M` positive and divisible by
`2 ^ (K - 1)`) and every batch size `B`, `noise_pyramid M B K` has
exactly `K` entries; entry `j` has shape
`(B, M / 2 ^ (K - 1 - j), M / 2 ^ (K - 1 - j), 3)` — spatial sizes
`M / 2 ^ (K - 1), ..., M / 2, M` coarsest first — and those sizes are
strictly increasing. -/
theorem noise_pyramid_spec (M B K : Nat) (hM : 0 < M)
    (hdvd : 2 ^ (K - 1) ∣ M) :
    (noise_pyramid M B K).length = K ∧
    (∀ j, j < K → (noise_pyramid M B K)[j]? =
      some ⟨B, M / 2 ^ (K - 1 - j), M / 2 ^ (K - 1 - j), 3⟩) ∧
    (∀ i j, i < j → j < K →
      M / 2 ^ (K - 1 - i) < M / 2 ^ (K - 1 - j)) := by
  refine ⟨by simp [noise_pyramid],
    fun j hj => noise_pyramid_getElem? M B K j hj, ?_⟩
  intro i j hij hjK
  have ht : 0 < M / 2 ^ (K - 1) := by
    obtain ⟨t, rfl⟩ := hdvd
    have h2 : (0:ℕ) < 2 ^ (K - 1) := Nat.pos_pow_of_pos _ (by norm_num)
    have ht0 : 0 < t := by
      rcases Nat.eq_zero_or_pos t with h0 | h0
      · subst h0
        simp at hM
      · exact h0
    rw [Nat.mul_div_cancel_left _ h2]
    exact ht0
  rw [div_pow_of_dvd M K (K - 1 - i) hdvd (by omega),
    div_pow_of_dvd M K (K - 1 - j) hdvd (by omega)]
  have hi : K - 1 - (K - 1 - i) = i := by omega
  have hj : K - 1 - (K - 1 - j) = j := by omega
  rw [hi, hj]
  exact (Nat.mul_lt_mul_right ht).mpr
    (Nat.pow_lt_pow_right Nat.one_lt_two hij)

/-- Witness for C5 at `M = 224`, `B = 1`, `K = 5`. -/
theorem noise_pyramid_spec_witness :
    (noise_pyramid 224 1 5).length = 5 ∧
    (∀ j, j < 5 → (noise_pyramid 224 1 5)[j]? =
      some ⟨1, 224 / 2 ^ (5 - 1 - j), 224 / 2 ^ (5 - 1 - j), 3⟩) ∧
    (∀ i j, i < j → j < 5 →
      224 / 2 ^ (5 - 1 - i) < 224 / 2 ^ (5 - 1 - j)) :=
  noise_pyramid_spec 224 1 5 (by decide) (by decide)

/-- C6: for any lower- and higher-resolution input shapes with matching
batch dimension (required for the channel-axis concat), `join_block`
returns a tensor with the higher input's spatial size and the sum of
the two channel counts. -/
theorem join_block_spec (lower higher : Shape)
    (hb : lower.batch = higher.batch) :
    join_block lower higher =
      some ⟨higher.batch, higher.h, higher.w, lower.c + higher.c⟩ :=
  join_block_eq lower higher hb

/-- Witness for C6 at concrete shapes with different channel counts. -/
theorem join_block_spec_witness :
    join_block ⟨2, 7, 7, 5⟩ ⟨2, 14, 14, 11⟩ = some ⟨2, 14, 14, 16⟩ :=
  join_block_spec ⟨2, 7, 7, 5⟩ ⟨2, 14, 14, 11⟩ rfl

/-- C7: `conv_chain` is exactly three `conv_block`s with kernel sizes
3, 3, 1, all at the target channel count, and its output keeps the
input's batch and spatial size while having exactly the target channel
count. -/
theorem conv_chain_spec (input_layer : Shape) (out_channels : Nat) :
    conv_chain input_layer out_channels =
      conv_block (conv_block (conv_block input_layer 3 out_channels)
        3 out_channels) 1 out_channels ∧
    conv_chain input_layer out_channels =
      ⟨input_layer.batch, input_layer.h, input_layer.w, out_channels⟩ :=
  ⟨rfl, rfl⟩

/-- C8: the export transform clips every (scaled) pixel value into
`[0, 255]` and quantizes to an integer byte value; internal values are
unconstrained (e.g. 2 and -1 are representable) and are only clamped
here, at export. -/
theorem export_pixel_spec :
    (∀ v : ℚ, 0 ≤ export_pixel v ∧ export_pixel v ≤ 255) ∧
    export_pixel 2 = 255 ∧ export_pixel (-1) = 0 := by
  refine ⟨fun v => ⟨?_, ?_⟩, by norm_num [export_pixel, np_clip],
    by norm_num [export_pixel, np_clip]⟩
  · rw [export_pixel]
    refine Int.le_floor.mpr ?_
    push_cast
    exact le_min (le_max_right _ _) (by norm_num)
  · rw [export_pixel]
    have hy : np_clip (v * 255) 0 255 ≤ (255:ℚ) := min_le_right _ _
    have h2 := Int.floor_le_floor hy
    calc Int.floor (np_clip (v * 255) 0 255) ≤ Int.floor (255:ℚ) := h2
      _ = 255 := by norm_num

/-- C9: the batched tensor handed to the VGG network is the batch-axis
concatenation of the reference texture image followed by two copies of
the generated output — the generated image appears twice, not once —
and its shape is (3, 224, 224, 3) for the configured network. -/
theorem vgg_input_spec :
    vgg_input_tensors.count GraphTensor.generatedOutput = 2 ∧
    vgg_input_tensors.count GraphTensor.textureImage = 1 ∧
    vgg_input_tensors.head? = some GraphTensor.textureImage ∧
    vgg_input_shape = some ⟨3, 224, 224, 3⟩ :=
  ⟨by decide, by decide, by decide, by decide⟩

/-- C10: for every `M`, `B` and `k`, the placeholder pyramid and the
noise pyramid are the very same list of shapes (both built from the
`M // 2 ^ x` formula and both reversed), of length `k`, so the
index-wise feed binding in `run_train` is always shape-consistent. -/
theorem pyramids_index_consistent (name : String) (M B k : Nat) :
    input_pyramid name M B k = noise_pyramid M B k ∧
    (input_pyramid name M B k).length = k ∧
    (noise_pyramid M B k).length = k :=
  ⟨rfl, by simp [input_pyramid], by simp [noise_pyramid]⟩

end TextureNetworks
